import Mathlib

/-!
Verification of the Scoring and Recommendation Engine of the
bulk-seo-competitor-seo-scores repository (src/app.py, class SEOScorer).

The embedding models a loaded pandas DataFrame as a `Table` of rows whose
cells are null (NaN), a rational number, or a string.  Pandas/NumPy floats
are modelled as exact rationals; a float that is NaN is modelled as
`Option.none` (type `PFloat` below).  Operations that raise a Python
exception (TypeError on comparing a string with a number, ValueError on
rounding NaN) are modelled in the `Except Unit` monad.

Rational arithmetic is written through `Rat.divInt` on numerators and
denominators (`qAdd`, `qSub`, `qMul`, `qDiv`) so that every definition
evaluates by kernel reduction; the lemmas `qAdd_eq`, `qSub_eq`, `qMul_eq`,
`qDiv_eq` identify these with the field operations of `ℚ`.
-/

/-- Addition on `ℚ` computed on numerator and denominator (kernel-reducible). -/
def qAdd (a b : ℚ) : ℚ := Rat.divInt (a.num * b.den + b.num * a.den) (a.den * b.den)

/-- Subtraction on `ℚ` computed on numerator and denominator (kernel-reducible). -/
def qSub (a b : ℚ) : ℚ := Rat.divInt (a.num * b.den - b.num * a.den) (a.den * b.den)

/-- Multiplication on `ℚ` computed on numerator and denominator (kernel-reducible). -/
def qMul (a b : ℚ) : ℚ := Rat.divInt (a.num * b.num) (a.den * b.den)

/-- Division on `ℚ` computed on numerator and denominator (kernel-reducible). -/
def qDiv (a b : ℚ) : ℚ := Rat.divInt (a.num * b.den) (a.den * b.num)

theorem qAdd_eq (a b : ℚ) : qAdd a b = a + b := by
  unfold qAdd
  rw [Rat.divInt_eq_div]
  have ha : ((a.den : ℚ)) ≠ 0 := Nat.cast_ne_zero.mpr a.den_nz
  have hb : ((b.den : ℚ)) ≠ 0 := Nat.cast_ne_zero.mpr b.den_nz
  conv_rhs => rw [← Rat.num_div_den a, ← Rat.num_div_den b]
  push_cast
  field_simp

theorem qSub_eq (a b : ℚ) : qSub a b = a - b := by
  unfold qSub
  rw [Rat.divInt_eq_div]
  have ha : ((a.den : ℚ)) ≠ 0 := Nat.cast_ne_zero.mpr a.den_nz
  have hb : ((b.den : ℚ)) ≠ 0 := Nat.cast_ne_zero.mpr b.den_nz
  conv_rhs => rw [← Rat.num_div_den a, ← Rat.num_div_den b]
  push_cast
  field_simp
  ring

theorem qMul_eq (a b : ℚ) : qMul a b = a * b := by
  unfold qMul
  rw [Rat.divInt_eq_div]
  have ha : ((a.den : ℚ)) ≠ 0 := Nat.cast_ne_zero.mpr a.den_nz
  have hb : ((b.den : ℚ)) ≠ 0 := Nat.cast_ne_zero.mpr b.den_nz
  conv_rhs => rw [← Rat.num_div_den a, ← Rat.num_div_den b]
  push_cast
  field_simp

theorem qDiv_eq (a b : ℚ) (hb : b ≠ 0) : qDiv a b = a / b := by
  unfold qDiv
  rw [Rat.divInt_eq_div]
  have ha : ((a.den : ℚ)) ≠ 0 := Nat.cast_ne_zero.mpr a.den_nz
  have hbd : ((b.den : ℚ)) ≠ 0 := Nat.cast_ne_zero.mpr b.den_nz
  have hbn : ((b.num : ℚ)) ≠ 0 := by
    exact_mod_cast Rat.num_ne_zero.mpr hb
  conv_rhs => rw [← Rat.num_div_den a, ← Rat.num_div_den b]
  push_cast
  field_simp

/-- Python 3 `round` (round half to even), on an exact rational.  The tests
`2*q.num - 2*⌊q⌋*q.den ≶ q.den` compare the fractional part of `q` with `1/2`
using only integer arithmetic, so that the function evaluates by kernel
reduction. -/
def pyRound (q : ℚ) : ℤ :=
  if 2 * q.num - 2 * q.floor * q.den < (q.den : ℤ) then q.floor
  else if (q.den : ℤ) < 2 * q.num - 2 * q.floor * q.den then q.floor + 1
  else if 2 ∣ q.floor then q.floor else q.floor + 1

theorem qfloor_eq (q : ℚ) : q.floor = ⌊q⌋ := by
  rw [Rat.floor_def', Rat.floor_def]

theorem num_eq_mul_den (q : ℚ) : (q.num : ℚ) = q * (q.den : ℚ) := by
  have hd : ((q.den : ℚ)) ≠ 0 := Nat.cast_ne_zero.mpr q.den_nz
  rw [← div_eq_iff hd]
  exact Rat.num_div_den q

theorem den_pos_q (q : ℚ) : (0 : ℚ) < (q.den : ℚ) := by
  exact_mod_cast q.pos

/-- The integer test in `pyRound` detects a fractional part below one half. -/
theorem pyRound_lt_half_iff (q : ℚ) :
    (2 * q.num - 2 * ⌊q⌋ * q.den < (q.den : ℤ)) ↔ q - (⌊q⌋ : ℚ) < 1 / 2 := by
  have hd := den_pos_q q
  constructor
  · intro h
    have h2 : ((2 * q.num - 2 * ⌊q⌋ * (q.den : ℤ) : ℤ) : ℚ) < ((q.den : ℤ) : ℚ) := by
      exact_mod_cast h
    push_cast at h2
    rw [num_eq_mul_den q] at h2
    nlinarith
  · intro h
    have h2 : ((2 * q.num - 2 * ⌊q⌋ * (q.den : ℤ) : ℤ) : ℚ) < ((q.den : ℤ) : ℚ) := by
      push_cast
      rw [num_eq_mul_den q]
      nlinarith
    exact_mod_cast h2

/-- The integer test in `pyRound` detects a fractional part above one half. -/
theorem pyRound_gt_half_iff (q : ℚ) :
    ((q.den : ℤ) < 2 * q.num - 2 * ⌊q⌋ * q.den) ↔ 1 / 2 < q - (⌊q⌋ : ℚ) := by
  have hd := den_pos_q q
  constructor
  · intro h
    have h2 : ((q.den : ℤ) : ℚ) < ((2 * q.num - 2 * ⌊q⌋ * (q.den : ℤ) : ℤ) : ℚ) := by
      exact_mod_cast h
    push_cast at h2
    rw [num_eq_mul_den q] at h2
    nlinarith
  · intro h
    have h2 : ((q.den : ℤ) : ℚ) < ((2 * q.num - 2 * ⌊q⌋ * (q.den : ℤ) : ℤ) : ℚ) := by
      push_cast
      rw [num_eq_mul_den q]
      nlinarith
    exact_mod_cast h2

/-- Characterisation of `pyRound` in terms of the floor and the fractional part. -/
theorem pyRound_eq (q : ℚ) :
    pyRound q =
      if q - (⌊q⌋ : ℚ) < 1 / 2 then ⌊q⌋
      else if 1 / 2 < q - (⌊q⌋ : ℚ) then ⌊q⌋ + 1
      else if 2 ∣ ⌊q⌋ then ⌊q⌋ else ⌊q⌋ + 1 := by
  unfold pyRound
  simp only [qfloor_eq, pyRound_lt_half_iff, pyRound_gt_half_iff]

theorem pyRound_ge_floor (q : ℚ) : ⌊q⌋ ≤ pyRound q := by
  rw [pyRound_eq]
  split_ifs <;> omega

theorem pyRound_le_floor_add_one (q : ℚ) : pyRound q ≤ ⌊q⌋ + 1 := by
  rw [pyRound_eq]
  split_ifs <;> omega

theorem intCast_le_pyRound {n : ℤ} {q : ℚ} (h : (n : ℚ) ≤ q) : n ≤ pyRound q :=
  le_trans (Int.le_floor.mpr h) (pyRound_ge_floor q)

theorem pyRound_le_intCast {n : ℤ} {q : ℚ} (h : q ≤ (n : ℚ)) : pyRound q ≤ n := by
  have hf : ⌊q⌋ ≤ n := by
    have h1 := Int.floor_mono h
    simpa using h1
  rcases eq_or_lt_of_le hf with heq | hlt
  · have hcast : ((⌊q⌋ : ℤ) : ℚ) = (n : ℚ) := by exact_mod_cast heq
    have hq : q - (⌊q⌋ : ℚ) < 1 / 2 := by
      rw [hcast]
      linarith
    rw [pyRound_eq, if_pos hq]
    exact hf
  · exact le_trans (pyRound_le_floor_add_one q) (by omega)

theorem pyRound_mono {q r : ℚ} (h : q ≤ r) : pyRound q ≤ pyRound r := by
  rcases lt_or_le ⌊q⌋ ⌊r⌋ with hf | hf
  · calc pyRound q ≤ ⌊q⌋ + 1 := pyRound_le_floor_add_one q
      _ ≤ ⌊r⌋ := by omega
      _ ≤ pyRound r := pyRound_ge_floor r
  · have hfe : ⌊q⌋ = ⌊r⌋ := le_antisymm (Int.floor_mono h) hf
    have hfr : q - ((⌊q⌋ : ℤ) : ℚ) ≤ r - ((⌊r⌋ : ℤ) : ℚ) := by
      rw [hfe]
      linarith
    rw [pyRound_eq, pyRound_eq, hfe]
    rw [hfe] at hfr
    split_ifs <;> first | omega | linarith

theorem pyRound_intCast (n : ℤ) : pyRound ((n : ℤ) : ℚ) = n := by
  rw [pyRound_eq]
  rw [Int.floor_intCast]
  norm_num

deriving instance DecidableEq for Except

/-- A cell of the loaded spreadsheet: missing (pandas NaN), numeric, or textual. -/
inductive Value
  | null
  | num (q : ℚ)
  | str (s : String)
deriving DecidableEq

/-- One row of the loaded spreadsheet, as an association list from column name
to cell value.  Columns absent from the table are absent from every row. -/
structure Row where
  cells : List (String × Value)
deriving DecidableEq

/-- A loaded spreadsheet (`pd.read_csv` / `pd.read_excel` result): the column
names and the rows. -/
structure Table where
  cols : List String
  rows : List Row
deriving DecidableEq

/-- Cell lookup; a column with no entry in the row reads as null. -/
def Row.get (r : Row) (c : String) : Value :=
  match r.cells.find? (fun p => p.1 == c) with
  | some p => p.2
  | Option.none => Value.null

/-- The column `df[c]` as a list of cells. -/
def Table.col (t : Table) (c : String) : List Value := t.rows.map (fun r => Row.get r c)

/-- A pandas float value: `Option.none` models NaN. -/
abbrev PFloat := Option ℚ

/-- A non-NaN float. -/
def pf (q : ℚ) : PFloat := some q

/-- Comparison `x < c` on a float; any comparison with NaN is false. -/
def pfLt (x : PFloat) (c : ℚ) : Bool :=
  match x with
  | some q => decide (q < c)
  | Option.none => false

/-- Comparison `0 < x` on a float; false on NaN. -/
def pfGt0 (x : PFloat) : Bool :=
  match x with
  | some q => decide (0 < q)
  | Option.none => false

/-- Python `max(0, x)`: because `max` keeps its first argument when the
comparison with NaN is false, `max(0, nan)` is `0`. -/
def pfMax0 : PFloat → PFloat
  | some q => some (max 0 q)
  | Option.none => some 0

/-- Float addition; NaN propagates. -/
def pfAdd : PFloat → PFloat → PFloat
  | some a, some b => some (qAdd a b)
  | _, _ => Option.none

/-- Float division by 2; NaN propagates. -/
def pfHalf (x : PFloat) : PFloat := x.map (fun a => qDiv a 2)

/-- `pd.notna` on a cell. -/
def Value.notna : Value → Bool
  | Value.null => false
  | _ => true

/-- Does the cell hold a string (making the column object-typed for pandas
numeric operations, which then raise TypeError)? -/
def Value.isStr : Value → Bool
  | Value.str _ => true
  | _ => false

/-- Does the cell hold a number? -/
def Value.isNum : Value → Bool
  | Value.num _ => true
  | _ => false

/-- The numeric content of a cell, if any. -/
def Value.asNum : Value → Option ℚ
  | Value.num q => some q
  | _ => Option.none

/-- Elementwise `== n` on a cell (pandas equality never raises; NaN and
strings simply compare unequal to a number). -/
def vEqNum (n : ℚ) : Value → Bool
  | Value.num q => decide (q = n)
  | _ => false

/-- Elementwise `== s` on a cell for a string literal. -/
def vEqStr (s : String) : Value → Bool
  | Value.str x => x == s
  | _ => false

/-- Elementwise numeric comparison on a cell: NaN compares false, a numeric
cell is tested, and a string cell raises TypeError (pandas comparing an
object column with a number). -/
def vCmp (p : ℚ → Bool) : Value → Except Unit Bool
  | Value.null => Except.ok false
  | Value.num q => Except.ok (p q)
  | Value.str _ => Except.error ()

/-- Elementwise comparison of a list of cells, short-circuiting on the first
string cell (the TypeError of the whole pandas comparison). -/
def listCmp (p : ℚ → Bool) : List Value → Except Unit (List Bool)
  | [] => Except.ok []
  | v :: vs =>
    vCmp p v >>= fun b =>
    listCmp p vs >>= fun bs =>
    Except.ok (b :: bs)

/-- Comparison of a whole column with a numeric threshold, e.g.
`df[c] <= 1.0`; raises iff the column contains a string. -/
def colCmp (t : Table) (c : String) (p : ℚ → Bool) : Except Unit (List Bool) :=
  listCmp p (t.col c)

/-- `fillna(d)` followed by numeric use of the cell: null becomes `d`, a
string raises TypeError when the column enters arithmetic. -/
def toNumFill (d : ℚ) : Value → Except Unit ℚ
  | Value.null => Except.ok d
  | Value.num q => Except.ok q
  | Value.str _ => Except.error ()

/-- `fillna(d)` over a whole column entering arithmetic. -/
def listNumFill (d : ℚ) : List Value → Except Unit (List ℚ)
  | [] => Except.ok []
  | v :: vs =>
    toNumFill d v >>= fun q =>
    listNumFill d vs >>= fun qs =>
    Except.ok (q :: qs)

/-- Mean of a list of rationals; the empty mean is NaN. -/
def qMean (xs : List ℚ) : PFloat :=
  if xs.isEmpty then Option.none
  else some (qDiv (xs.foldr qAdd 0) ((xs.length : ℤ) : ℚ))

/-- Mean of a boolean series times 100 (the share of rows satisfying a
predicate, as a percentage); NaN on an empty table. -/
def fracScore (bs : List Bool) : PFloat :=
  if bs.isEmpty then Option.none
  else some (Rat.divInt (((bs.countP id : ℕ) : ℤ) * 100) ((bs.length : ℕ) : ℤ))

/-- Column mean `df[c].mean()`: raises TypeError if the column holds a string
(object dtype), otherwise averages the numeric cells, skipping NaN; a column
with no numeric cell has mean NaN. -/
def colMean (t : Table) (c : String) : Except Unit PFloat :=
  let vs := t.col c
  if vs.any Value.isStr then Except.error ()
  else Except.ok (qMean (vs.filterMap Value.asNum))

/-- Rounding of a float score, `round(x)`: Python raises ValueError on NaN. -/
def pyRoundF : PFloat → Except Unit ℤ
  | some q => Except.ok (pyRound q)
  | Option.none => Except.error ()

/-- Mean of a list of integer sub-scores, `np.mean(list(scores.values()))`. -/
def intMean (xs : List ℤ) : ℚ := Rat.divInt xs.sum ((xs.length : ℕ) : ℤ)

/-- The five sub-scores that `analyze_content_seo` stores in its `scores`
dict (app.py lines 198, 212, 231, 307, 333).  The schema, keyword-density and
image-alt figures are written only to `detailed_analysis` and never enter
`scores`. -/
structure ContentScores where
  meta_title : ℤ
  meta_description : ℤ
  h1_tags : ℤ
  internal_linking : ℤ
  content_quality : ℤ
deriving DecidableEq

/-- Return value of `analyze_content_seo`: the rounded category score, the
`scores` dict and the weakness list (the `detailed_analysis` dict is
display-only metadata and is not modelled beyond its exception behaviour). -/
structure ContentResult where
  score : ℤ
  scores : ContentScores
  weaknesses : List String
deriving DecidableEq

/-- Meta-title analysis, app.py lines 179-190: fraction of rows with a
non-null `Title 1` (and, when present, `Title 1 Length` in [30, 60]); the
weakness fires below 50 only when the column exists. -/
def titleEval (t : Table) : Except Unit (PFloat × List String) :=
  if "Title 1" ∈ t.cols then
    (if "Title 1 Length" ∈ t.cols then
      colCmp t "Title 1 Length" (fun q => decide (30 ≤ q) && decide (q ≤ 60)) >>= fun good =>
      Except.ok (fracScore (List.zipWith (fun a b => a && b)
        ((t.col "Title 1").map Value.notna) good))
    else Except.ok (fracScore ((t.col "Title 1").map Value.notna))) >>= fun ts =>
    Except.ok (ts, if pfLt ts 50 then ["Short or missing meta titles."] else [])
  else Except.ok (pf 0, [])

/-- Meta-description analysis, app.py lines 201-211 (length window [120, 160]). -/
def descEval (t : Table) : Except Unit (PFloat × List String) :=
  if "Meta Description 1" ∈ t.cols then
    (if "Meta Description 1 Length" ∈ t.cols then
      colCmp t "Meta Description 1 Length" (fun q => decide (120 ≤ q) && decide (q ≤ 160)) >>= fun good =>
      Except.ok (fracScore (List.zipWith (fun a b => a && b)
        ((t.col "Meta Description 1").map Value.notna) good))
    else Except.ok (fracScore ((t.col "Meta Description 1").map Value.notna))) >>= fun ds =>
    Except.ok (ds, if pfLt ds 50 then ["Short or missing meta descriptions."] else [])
  else Except.ok (pf 0, [])

/-- H1 analysis, app.py lines 215-223: `H1-1` first, `H1` as fallback. -/
def h1Eval (t : Table) : PFloat × List String :=
  if "H1-1" ∈ t.cols then
    let s := fracScore ((t.col "H1-1").map Value.notna)
    (s, if pfLt s 50 then ["Missing or poorly optimized H1 tags."] else [])
  else if "H1" ∈ t.cols then
    let s := fracScore ((t.col "H1").map Value.notna)
    (s, if pfLt s 50 then ["Missing or poorly optimized H1 tags."] else [])
  else (pf 0, [])

/-- Image-alt analysis, app.py lines 270-279.  The value only feeds
`detailed_analysis`, but the arithmetic on the `Images` columns can raise, so
the computation participates in the scorer's exception behaviour.  With both
`Images` and `Images Missing Alt Text` the per-row ratio
`(total - missing) / total.replace(0, 1)` is averaged; with only
`Images without Alt Text` the share of rows whose count is 0 is used. -/
def imgAltScore (t : Table) : Except Unit PFloat :=
  if "Images" ∈ t.cols ∧ "Images Missing Alt Text" ∈ t.cols then
    listNumFill 0 (t.col "Images") >>= fun tot =>
    if 0 < tot.countP (fun q => decide (0 < q)) then
      listNumFill 0 (t.col "Images Missing Alt Text") >>= fun mis =>
      Except.ok ((qMean (List.zipWith
        (fun ti mi => qDiv (qSub ti mi) (if ti = 0 then 1 else ti)) tot mis)).map
          (fun m => qMul m 100))
    else Except.ok (pf 0)
  else if "Images without Alt Text" ∈ t.cols then
    Except.ok (fracScore ((t.col "Images without Alt Text").map
      (fun v => decide ((match v with | Value.null => Value.num 0 | w => w) = Value.num 0))))
  else Except.ok (pf 0)

/-- Internal-linking analysis, app.py lines 289-299: `Inlinks > 0`, with
`Internal Links` as fallback. -/
def ilEval (t : Table) : Except Unit (PFloat × List String) :=
  if "Inlinks" ∈ t.cols then
    colCmp t "Inlinks" (fun q => decide (0 < q)) >>= fun good =>
    let s := fracScore good
    Except.ok (s, if pfLt s 50 then ["Insufficient internal linking."] else [])
  else if "Internal Links" ∈ t.cols then
    colCmp t "Internal Links" (fun q => decide (0 < q)) >>= fun good =>
    let s := fracScore good
    Except.ok (s, if pfLt s 50 then ["Insufficient internal linking."] else [])
  else Except.ok (pf 0, [])

/-- Content-quality analysis, app.py lines 310-325: share of rows with
`Word Count >= 300` and with `Flesch Reading Ease Score >= 60`; when either
share is positive the quality score is their average. -/
def qualityEval (t : Table) : Except Unit (PFloat × List String) :=
  (if "Word Count" ∈ t.cols then
    colCmp t "Word Count" (fun q => decide (300 ≤ q)) >>= fun g =>
    Except.ok (fracScore g)
  else Except.ok (pf 0)) >>= fun wcg =>
  (if "Flesch Reading Ease Score" ∈ t.cols then
    colCmp t "Flesch Reading Ease Score" (fun q => decide (60 ≤ q)) >>= fun g =>
    Except.ok (fracScore g)
  else Except.ok (pf 0)) >>= fun rdg =>
  if pfGt0 wcg || pfGt0 rdg then
    let s := pfHalf (pfAdd wcg rdg)
    Except.ok (s, if pfLt s 50 then ["Low content quality or poor readability."] else [])
  else Except.ok (pf 0, [])

/-- `SEOScorer.analyze_content_seo` (app.py lines 174-335).  The schema and
keyword-density blocks only fill `detailed_analysis` and cannot raise, so
they are omitted; the rounding of each sub-score is gathered at the end
(every error of the Python code is a bare TypeError/ValueError, modelled by
the single error value `()`, so the exact interleaving of the failing
operations does not change the result). -/
def analyze_content_seo (t : Table) : Except Unit ContentResult :=
  titleEval t >>= fun tp =>
  descEval t >>= fun dp =>
  imgAltScore t >>= fun _ =>
  ilEval t >>= fun ip =>
  qualityEval t >>= fun qp =>
  pyRoundF tp.1 >>= fun mt =>
  pyRoundF dp.1 >>= fun md =>
  pyRoundF (h1Eval t).1 >>= fun h1 =>
  pyRoundF ip.1 >>= fun il =>
  pyRoundF qp.1 >>= fun cq =>
  Except.ok ⟨pyRound (intMean [mt, md, h1, il, cq]),
    ⟨mt, md, h1, il, cq⟩,
    tp.2 ++ dp.2 ++ (h1Eval t).2 ++ ip.2 ++ qp.2⟩

/-- The four sub-scores that `analyze_technical_seo` stores in its `scores`
dict (app.py lines 384, 400, 416, 432). -/
structure TechScores where
  response_time : ℤ
  status_codes : ℤ
  indexability : ℤ
  canonical_tags : ℤ
deriving DecidableEq

/-- Return value of `analyze_technical_seo`. -/
structure TechResult where
  score : ℤ
  scores : TechScores
  weaknesses : List String
deriving DecidableEq

/-- Response-time / speed analysis, app.py lines 343-358: share of rows with
`Response Time <= 1.0`; a `Mobile Speed` column leaves the sub-score 0; a
`Page Speed` column gives `max(0, 100 - mean * 10)`.  The unused
`avg_response` mean of line 349 is kept because it can raise first. -/
def responseEval (t : Table) : Except Unit (PFloat × List String) :=
  if "Response Time" ∈ t.cols then
    colMean t "Response Time" >>= fun _avg =>
    colCmp t "Response Time" (fun q => decide (q ≤ 1)) >>= fun good =>
    let s := fracScore good
    Except.ok (s, if pfLt s 50 then ["Slow response times."] else [])
  else if "Mobile Speed" ∈ t.cols then
    colMean t "Mobile Speed" >>= fun _ms =>
    Except.ok (pf 0, [])
  else if "Page Speed" ∈ t.cols then
    colMean t "Page Speed" >>= fun avg =>
    Except.ok (pfMax0 (avg.map (fun a => qSub 100 (qMul a 10))), [])
  else Except.ok (pf 0, [])

/-- Status-code analysis, app.py lines 387-399: share of rows with status
200; default 85 with no status column; weakness below 70. -/
def statusEval (t : Table) : PFloat × List String :=
  if "Status Code" ∈ t.cols then
    let s := fracScore ((t.col "Status Code").map (vEqNum 200))
    (s, if pfLt s 70 then ["Issues with HTTP status codes."] else [])
  else if "HTTP Status Code" ∈ t.cols then
    let s := fracScore ((t.col "HTTP Status Code").map (vEqNum 200))
    (s, if pfLt s 70 then ["Issues with HTTP status codes."] else [])
  else (pf 85, [])

/-- Indexability analysis, app.py lines 403-415; default 80. -/
def indexEval (t : Table) : PFloat × List String :=
  if "Indexability" ∈ t.cols then
    let s := fracScore ((t.col "Indexability").map (vEqStr "Indexable"))
    (s, if pfLt s 70 then ["Pages not indexable."] else [])
  else if "Indexable" ∈ t.cols then
    let s := fracScore ((t.col "Indexable").map (vEqStr "Yes"))
    (s, if pfLt s 70 then ["Pages not indexable."] else [])
  else (pf 80, [])

/-- First canonical column recognised by the loop of app.py lines 420-425. -/
def canonicalCol (t : Table) : Option String :=
  if "Canonical Link Element 1" ∈ t.cols then some "Canonical Link Element 1"
  else if "Canonical" ∈ t.cols then some "Canonical"
  else if "Canonical URL" ∈ t.cols then some "Canonical URL"
  else Option.none

/-- Canonical coverage measured from the first recognised column (0 when no
column matches), app.py lines 419-425. -/
def canonicalEval (t : Table) : PFloat :=
  match canonicalCol t with
  | some c => fracScore ((t.col c).map Value.notna)
  | Option.none => pf 0

/-- The `if canonical_score == 0: canonical_score = 75` default of app.py
lines 427-428 (NaN compares unequal to 0 and is kept). -/
def canonicalScore (t : Table) : PFloat :=
  if canonicalEval t = pf 0 then pf 75 else canonicalEval t

/-- Canonical weakness, app.py lines 430-431 (checked on the defaulted value,
outside any column-presence test). -/
def canonicalWeak (t : Table) : List String :=
  if pfLt (canonicalScore t) 70 then ["Improper or missing canonical tags."] else []

/-- Image-optimization block, app.py lines 435-444.  Its figure only feeds
`detailed_analysis`, but the arithmetic raises TypeError when the involved
columns hold strings, so only that exception behaviour is modelled. -/
def imgOptEffect (t : Table) : Except Unit Unit :=
  if "Images over 100kb" ∈ t.cols then
    listNumFill 0 (t.col "Images over 100kb") >>= fun _large =>
    (if "Images" ∈ t.cols then listNumFill 1 (t.col "Images")
     else Except.ok [1]) >>= fun _tot =>
    Except.ok ()
  else if "Image Size" ∈ t.cols then
    colCmp t "Image Size" (fun q => decide (q ≤ 100000)) >>= fun _g =>
    Except.ok ()
  else Except.ok ()

/-- HTTPS block, app.py lines 483-489.  `df['Address'].str.startswith` uses
the pandas `.str` accessor, which raises AttributeError on a column whose
non-null cells are all numeric (inferred numeric dtype); a column holding at
least one string is object-typed and accepted, with non-string cells mapped
to NaN and filled False by `na=False`, and an all-null or empty column infers
"empty" and is accepted.  The resulting share feeds only `detailed_analysis`,
so only the exception behaviour is modelled. -/
def httpsEffect (t : Table) : Except Unit Unit :=
  if "Address" ∈ t.cols then
    if (t.col "Address").any Value.isNum && !(t.col "Address").any Value.isStr then
      Except.error ()
    else Except.ok ()
  else if "URL" ∈ t.cols then
    if (t.col "URL").any Value.isNum && !(t.col "URL").any Value.isStr then
      Except.error ()
    else Except.ok ()
  else Except.ok ()

/-- `SEOScorer.analyze_technical_seo` (app.py lines 337-519).  The
mobile/desktop speed, sitemap, robots, SSR and hreflang blocks fill only
`detailed_analysis` and raise under no condition that is not already covered
(the mobile-speed mean re-reads a column whose mean was already taken), so
they are omitted; the image-optimization and HTTPS blocks can raise and are
kept as effects. -/
def analyze_technical_seo (t : Table) : Except Unit TechResult :=
  responseEval t >>= fun rp =>
  pyRoundF rp.1 >>= fun response_time =>
  pyRoundF (statusEval t).1 >>= fun status_codes =>
  pyRoundF (indexEval t).1 >>= fun indexability =>
  pyRoundF (canonicalScore t) >>= fun canonical_tags =>
  imgOptEffect t >>= fun _ =>
  httpsEffect t >>= fun _ =>
  Except.ok ⟨pyRound (intMean [response_time, status_codes, indexability, canonical_tags]),
    ⟨response_time, status_codes, indexability, canonical_tags⟩,
    rp.2 ++ (statusEval t).2 ++ (indexEval t).2 ++ canonicalWeak t⟩

/-- The three sub-scores that `analyze_user_experience` stores in its
`scores` dict (app.py lines 549, 589, 605). -/
structure UXScores where
  mobile_friendly : ℤ
  largest_contentful_paint : ℤ
  cumulative_layout_shift : ℤ
deriving DecidableEq

/-- Return value of `analyze_user_experience`. -/
structure UXResult where
  score : ℤ
  scores : UXScores
  weaknesses : List String
deriving DecidableEq

/-- Mobile-friendliness analysis, app.py lines 527-538; default 60. -/
def mobileEval (t : Table) : PFloat :=
  if "Mobile Friendly" ∈ t.cols then fracScore ((t.col "Mobile Friendly").map (vEqStr "Yes"))
  else if "Mobile Alternate Link" ∈ t.cols then
    fracScore ((t.col "Mobile Alternate Link").map Value.notna)
  else if "Viewport" ∈ t.cols then fracScore ((t.col "Viewport").map Value.notna)
  else pf 60

/-- LCP analysis, app.py lines 571-588: `<= 2500` ms or `<= 2.5` s, else an
estimate `max(0, 100 - mean(Response Time) * 20)`, else 55. -/
def lcpEval (t : Table) : Except Unit (PFloat × List String) :=
  if "Largest Contentful Paint Time (ms)" ∈ t.cols then
    colCmp t "Largest Contentful Paint Time (ms)" (fun q => decide (q ≤ 2500)) >>= fun good =>
    let s := fracScore good
    Except.ok (s, if pfLt s 50 then ["Slow LCP times."] else [])
  else if "LCP" ∈ t.cols then
    colCmp t "LCP" (fun q => decide (q ≤ Rat.divInt 5 2)) >>= fun good =>
    let s := fracScore good
    Except.ok (s, if pfLt s 50 then ["Slow LCP times."] else [])
  else if "Response Time" ∈ t.cols then
    colMean t "Response Time" >>= fun avg =>
    Except.ok (pfMax0 (avg.map (fun a => qSub 100 (qMul a 20))), [])
  else Except.ok (pf 55, [])

/-- CLS analysis, app.py lines 592-604: `<= 0.1`, else default 70. -/
def clsEval (t : Table) : Except Unit (PFloat × List String) :=
  if "Cumulative Layout Shift" ∈ t.cols then
    colCmp t "Cumulative Layout Shift" (fun q => decide (q ≤ Rat.divInt 1 10)) >>= fun good =>
    let s := fracScore good
    Except.ok (s, if pfLt s 50 then ["High CLS values."] else [])
  else if "CLS" ∈ t.cols then
    colCmp t "CLS" (fun q => decide (q ≤ Rat.divInt 1 10)) >>= fun good =>
    let s := fracScore good
    Except.ok (s, if pfLt s 50 then ["High CLS values."] else [])
  else Except.ok (pf 70, [])

/-- `SEOScorer.analyze_user_experience` (app.py lines 521-607).  The
mobile-friendly weakness test of line 540 sits outside every column branch;
the rich-search block fills only `detailed_analysis` and cannot raise. -/
def analyze_user_experience (t : Table) : Except Unit UXResult :=
  pyRoundF (mobileEval t) >>= fun mobile_friendly =>
  lcpEval t >>= fun lp =>
  pyRoundF lp.1 >>= fun largest_contentful_paint =>
  clsEval t >>= fun cp =>
  pyRoundF cp.1 >>= fun cumulative_layout_shift =>
  Except.ok ⟨pyRound (intMean [mobile_friendly, largest_contentful_paint, cumulative_layout_shift]),
    ⟨mobile_friendly, largest_contentful_paint, cumulative_layout_shift⟩,
    (if pfLt (mobileEval t) 50 then ["Pages not mobile-friendly."] else []) ++ lp.2 ++ cp.2⟩

/-- The state of an `SEOScorer` instance: only the weight dictionary set in
`__init__` (app.py lines 167-172); no method ever writes to it. -/
structure SEOScorer where
  content_seo : ℚ
  technical_seo : ℚ
  user_experience : ℚ
deriving DecidableEq

/-- `SEOScorer()` with the fixed weights 0.4 / 0.4 / 0.2. -/
def SEOScorer.init : SEOScorer :=
  ⟨Rat.divInt 2 5, Rat.divInt 2 5, Rat.divInt 1 5⟩

/-- `SEOScorer.calculate_overall_score` (app.py lines 650-662): each category
score is divided by 100, multiplied by its weight, the sum is scaled back by
100 and rounded. -/
def calculate_overall_score (s : SEOScorer) (content technical ux : ℤ) : ℤ :=
  pyRound (qMul
    (qAdd (qAdd (qMul (qDiv ((content : ℤ) : ℚ) 100) s.content_seo)
                (qMul (qDiv ((technical : ℤ) : ℚ) 100) s.technical_seo))
          (qMul (qDiv ((ux : ℤ) : ℚ) 100) s.user_experience))
    100)

/-- The per-table output of the engine that the driver code consumes: the
three category results and the overall score (app.py lines 836-840). -/
structure SiteReport where
  content : ContentResult
  technical : TechResult
  ux : UXResult
  overall : ℤ
deriving DecidableEq

/-- One full engine run on one table, with the scorer object threaded through
explicitly: none of the analyze methods mutates the instance, so the scorer
state is returned unchanged alongside the report. -/
def runAnalysis (s : SEOScorer) (t : Table) : SEOScorer × Except Unit SiteReport :=
  (s,
    analyze_content_seo t >>= fun c =>
    analyze_technical_seo t >>= fun te =>
    analyze_user_experience t >>= fun u =>
    Except.ok ⟨c, te, u, calculate_overall_score s c.score te.score u.score⟩)

/-- Modelled from the spec: the Recommendation Engine of spec section 4.4 is
not part of src/app.py (the repository ships only the scorers and the
aggregator), so its impact levels are taken from the words of the spec. -/
inductive Impact
  | critical
  | high
  | medium
  | low
  | informational
deriving DecidableEq

/-- Modelled from the spec: effort levels of the Recommendation Engine of
spec section 4.4, absent from src/app.py. -/
inductive Effort
  | quick_win
  | easy
  | moderate
  | complex
  | major
deriving DecidableEq

/-- Modelled from the spec: impact weights 5,4,3,2,1 for
critical, high, medium, low, informational (spec section 4.4). -/
def impactWeight : Impact → ℚ
  | Impact.critical => 5
  | Impact.high => 4
  | Impact.medium => 3
  | Impact.low => 2
  | Impact.informational => 1

/-- Modelled from the spec: effort weights 1,2,3,4,5 for
quick_win, easy, moderate, complex, major (spec section 4.4). -/
def effortWeight : Effort → ℚ
  | Effort.quick_win => 1
  | Effort.easy => 2
  | Effort.moderate => 3
  | Effort.complex => 4
  | Effort.major => 5

/-- Modelled from the spec: the priority score
`(impact_weight * 2) / effort_weight` of spec section 4.4. -/
def priorityScore (i : Impact) (e : Effort) : ℚ :=
  qDiv (qMul (impactWeight i) 2) (effortWeight e)

/-- Inversion of a successful bind in the `Except Unit` monad. -/
theorem bind_ok {α β : Type} {e : Except Unit α} {f : α → Except Unit β} {b : β}
    (h : e >>= f = Except.ok b) : ∃ a, e = Except.ok a ∧ f a = Except.ok b := by
  cases e with
  | error u => simp [Bind.bind, Except.bind] at h
  | ok a => exact ⟨a, rfl, by simpa [Bind.bind, Except.bind] using h⟩

/-- A score value inside the documented 0-100 band. -/
def inRange (n : ℤ) : Prop := 0 ≤ n ∧ n ≤ 100

instance inRange_decidable (n : ℤ) : Decidable (inRange n) :=
  inferInstanceAs (Decidable (0 ≤ n ∧ n ≤ 100))

/-- A float that, when it is a number at all, lies in the 0-100 band. -/
def pfInRange (x : PFloat) : Prop := ∀ q, x = some q → 0 ≤ q ∧ q ≤ 100

theorem pfInRange_none : pfInRange Option.none := by
  intro q hq
  cases hq

theorem pfInRange_pf {c : ℚ} (h0 : 0 ≤ c) (h1 : c ≤ 100) : pfInRange (pf c) := by
  intro q hq
  cases hq
  exact ⟨h0, h1⟩

theorem fracScore_inRange (bs : List Bool) : pfInRange (fracScore bs) := by
  intro q hq
  unfold fracScore at hq
  by_cases he : bs.isEmpty
  · rw [if_pos he] at hq
    cases hq
  · rw [if_neg he] at hq
    have hq' := Option.some.inj hq
    subst hq'
    rw [Rat.divInt_eq_div]
    have hlen : 0 < bs.length := List.length_pos.mpr (fun hn => he (by simp [hn]))
    have hlenq : (0 : ℚ) < ((bs.length : ℕ) : ℤ) := by exact_mod_cast hlen
    have hcount : bs.countP id ≤ bs.length := List.countP_le_length _
    constructor
    · apply div_nonneg _ (le_of_lt hlenq)
      positivity
    · rw [div_le_iff hlenq]
      have hcq : ((bs.countP id : ℕ) : ℚ) ≤ ((bs.length : ℕ) : ℚ) := by exact_mod_cast hcount
      push_cast
      nlinarith

theorem foldr_qAdd_eq (xs : List ℚ) : xs.foldr qAdd 0 = xs.sum := by
  induction xs with
  | nil => rfl
  | cons x ys ih => simp [List.foldr, qAdd_eq, ih]

/-- A successful, non-NaN column mean over nonnegative numeric cells is
nonnegative. -/
theorem colMean_ok_nonneg {t : Table} {c : String} {a : ℚ}
    (hv : ∀ v ∈ t.col c, ∀ q, v = Value.num q → 0 ≤ q)
    (hm : colMean t c = Except.ok (some a)) : 0 ≤ a := by
  unfold colMean at hm
  by_cases hs : (t.col c).any Value.isStr
  · rw [if_pos hs] at hm
    cases hm
  · rw [if_neg hs] at hm
    have hm' := Except.ok.inj hm
    unfold qMean at hm'
    set ns := (t.col c).filterMap Value.asNum with hns
    by_cases he : ns.isEmpty
    · rw [if_pos he] at hm'
      cases hm'
    · rw [if_neg he] at hm'
      have hm'' := Option.some.inj hm'
      subst hm''
      have hlen : 0 < ns.length := List.length_pos.mpr (fun hn => he (by simp [hn]))
      have hlenq : (((ns.length : ℕ) : ℤ) : ℚ) ≠ 0 := by
        have : (0 : ℚ) < (((ns.length : ℕ) : ℤ) : ℚ) := by exact_mod_cast hlen
        exact ne_of_gt this
    
      rw [qDiv_eq _ _ hlenq, foldr_qAdd_eq]
      apply div_nonneg
      · apply List.sum_nonneg
        intro x hx
        rw [hns] at hx
        obtain ⟨v, hvmem, hvx⟩ := List.mem_filterMap.mp hx
        cases v with
        | null => cases hvx
        | str s => cases hvx
        | num qv =>
          have := Option.some.inj hvx
          subst this
          exact hv _ hvmem qv rfl
      · have : (0 : ℚ) < (((ns.length : ℕ) : ℤ) : ℚ) := by exact_mod_cast hlen
        exact le_of_lt this

/-- The speed estimates `max(0, 100 - mean * k)` stay in band when the mean
is nonnegative (k nonnegative). -/
theorem pfInRange_speedEst {m : PFloat} {k : ℚ} (hk : 0 ≤ k)
    (hm : ∀ a, m = some a → 0 ≤ a) :
    pfInRange (pfMax0 (m.map (fun a => qSub 100 (qMul a k)))) := by
  intro q hq
  cases m with
  | none =>
    have hq' := Option.some.inj hq
    subst hq'
    norm_num
  | some a =>
    have ha := hm a rfl
    simp only [Option.map, pfMax0] at hq
    have hq' := Option.some.inj hq
    subst hq'
    constructor
    · exact le_max_left 0 _
    · apply max_le (by norm_num)
      rw [qSub_eq, qMul_eq]
      nlinarith

/-- Rounding keeps a float score in band. -/
theorem pyRoundF_ok_inRange {x : PFloat} {n : ℤ} (hx : pfInRange x)
    (h : pyRoundF x = Except.ok n) : inRange n := by
  cases x with
  | none => cases h
  | some q =>
    obtain ⟨h0, h1⟩ := hx q rfl
    have hn := Except.ok.inj h
    subst hn
    constructor
    · exact intCast_le_pyRound (by exact_mod_cast h0)
    · exact pyRound_le_intCast (by exact_mod_cast h1)

/-- Rounding the mean of in-band integer sub-scores gives an in-band score. -/
theorem intMean_round_inRange {xs : List ℤ} (hne : xs ≠ [])
    (h : ∀ x ∈ xs, inRange x) : inRange (pyRound (intMean xs)) := by
  have hlen : 0 < xs.length := List.length_pos.mpr hne
  have hlenq : (0 : ℚ) < (((xs.length : ℕ) : ℤ) : ℚ) := by exact_mod_cast hlen
  have hs0 : 0 ≤ xs.sum := List.sum_nonneg (fun x hx => (h x hx).1)
  have hs1 : xs.sum ≤ (xs.length : ℤ) * 100 := by
    calc xs.sum ≤ xs.length • (100 : ℤ) := List.sum_le_card_nsmul xs 100 (fun x hx => (h x hx).2)
      _ = (xs.length : ℤ) * 100 := by simp [nsmul_eq_mul]
  have hmean0 : (0 : ℚ) ≤ intMean xs := by
    unfold intMean
    rw [Rat.divInt_eq_div]
    apply div_nonneg _ (le_of_lt hlenq)
    exact_mod_cast hs0
  have hmean1 : intMean xs ≤ (100 : ℚ) := by
    unfold intMean
    rw [Rat.divInt_eq_div, div_le_iff hlenq]
    have : ((xs.sum : ℤ) : ℚ) ≤ (((xs.length : ℤ) : ℚ)) * 100 := by exact_mod_cast hs1
    push_cast at this ⊢
    linarith
  constructor
  · exact intCast_le_pyRound (by exact_mod_cast hmean0)
  · exact pyRound_le_intCast (by exact_mod_cast hmean1)

/-- The half-sum of two in-band floats is in band (NaN propagates and is
vacuously in band). -/
theorem pfInRange_halfAdd {a b : PFloat} (ha : pfInRange a) (hb : pfInRange b) :
    pfInRange (pfHalf (pfAdd a b)) := by
  intro q hq
  cases a with
  | none => cases b <;> cases hq
  | some x =>
    cases b with
    | none => cases hq
    | some y =>
      obtain ⟨hx0, hx1⟩ := ha x rfl
      obtain ⟨hy0, hy1⟩ := hb y rfl
      simp only [pfAdd, pfHalf, Option.map] at hq
      have hq' := Option.some.inj hq
      subst hq'
      rw [qAdd_eq, qDiv_eq _ _ (by norm_num)]
      constructor
      · linarith
      · linarith

/-- Decidable check that every numeric cell of a column is nonnegative. -/
def colNonnegB (t : Table) (c : String) : Bool :=
  (t.col c).all (fun v => match v with | Value.num q => decide (0 ≤ q) | _ => true)

theorem colNonnegB_spec {t : Table} {c : String} (h : colNonnegB t c = true) :
    ∀ v ∈ t.col c, ∀ q, v = Value.num q → 0 ≤ q := by
  intro v hv q hq
  subst hq
  have h2 := List.all_eq_true.mp h _ hv
  simpa using h2

/-- Successful runs of `analyze_content_seo` decompose into their
intermediate sub-computations. -/
theorem analyze_content_shape {t : Table} {r : ContentResult}
    (h : analyze_content_seo t = Except.ok r) :
    ∃ tp dp ia ip qp mt md hv il cq,
      titleEval t = Except.ok tp ∧ descEval t = Except.ok dp ∧
      imgAltScore t = Except.ok ia ∧ ilEval t = Except.ok ip ∧
      qualityEval t = Except.ok qp ∧
      pyRoundF tp.1 = Except.ok mt ∧ pyRoundF dp.1 = Except.ok md ∧
      pyRoundF (h1Eval t).1 = Except.ok hv ∧ pyRoundF ip.1 = Except.ok il ∧
      pyRoundF qp.1 = Except.ok cq ∧
      r = ⟨pyRound (intMean [mt, md, hv, il, cq]), ⟨mt, md, hv, il, cq⟩,
        tp.2 ++ dp.2 ++ (h1Eval t).2 ++ ip.2 ++ qp.2⟩ := by
  unfold analyze_content_seo at h
  obtain ⟨tp, h1, h⟩ := bind_ok h
  obtain ⟨dp, h2, h⟩ := bind_ok h
  obtain ⟨ia, h3, h⟩ := bind_ok h
  obtain ⟨ip, h4, h⟩ := bind_ok h
  obtain ⟨qp, h5, h⟩ := bind_ok h
  obtain ⟨mt, h6, h⟩ := bind_ok h
  obtain ⟨md, h7, h⟩ := bind_ok h
  obtain ⟨hv, h8, h⟩ := bind_ok h
  obtain ⟨il, h9, h⟩ := bind_ok h
  obtain ⟨cq, h10, h⟩ := bind_ok h
  exact ⟨tp, dp, ia, ip, qp, mt, md, hv, il, cq,
    h1, h2, h3, h4, h5, h6, h7, h8, h9, h10, (Except.ok.inj h).symm⟩

/-- Successful runs of `analyze_technical_seo` decompose into their
intermediate sub-computations. -/
theorem analyze_technical_shape {t : Table} {r : TechResult}
    (h : analyze_technical_seo t = Except.ok r) :
    ∃ rp rt sc ix ct,
      responseEval t = Except.ok rp ∧
      pyRoundF rp.1 = Except.ok rt ∧
      pyRoundF (statusEval t).1 = Except.ok sc ∧
      pyRoundF (indexEval t).1 = Except.ok ix ∧
      pyRoundF (canonicalScore t) = Except.ok ct ∧
      r = ⟨pyRound (intMean [rt, sc, ix, ct]), ⟨rt, sc, ix, ct⟩,
        rp.2 ++ (statusEval t).2 ++ (indexEval t).2 ++ canonicalWeak t⟩ := by
  unfold analyze_technical_seo at h
  obtain ⟨rp, h1, h⟩ := bind_ok h
  obtain ⟨rt, h2, h⟩ := bind_ok h
  obtain ⟨sc, h3, h⟩ := bind_ok h
  obtain ⟨ix, h4, h⟩ := bind_ok h
  obtain ⟨ct, h5, h⟩ := bind_ok h
  obtain ⟨u, h6, h⟩ := bind_ok h
  obtain ⟨u2, h7, h⟩ := bind_ok h
  exact ⟨rp, rt, sc, ix, ct, h1, h2, h3, h4, h5, (Except.ok.inj h).symm⟩

/-- Successful runs of `analyze_user_experience` decompose into their
intermediate sub-computations. -/
theorem analyze_ux_shape {t : Table} {r : UXResult}
    (h : analyze_user_experience t = Except.ok r) :
    ∃ mf lp lc cp cl,
      pyRoundF (mobileEval t) = Except.ok mf ∧
      lcpEval t = Except.ok lp ∧
      pyRoundF lp.1 = Except.ok lc ∧
      clsEval t = Except.ok cp ∧
      pyRoundF cp.1 = Except.ok cl ∧
      r = ⟨pyRound (intMean [mf, lc, cl]), ⟨mf, lc, cl⟩,
        (if pfLt (mobileEval t) 50 then ["Pages not mobile-friendly."] else []) ++
          lp.2 ++ cp.2⟩ := by
  unfold analyze_user_experience at h
  obtain ⟨mf, h1, h⟩ := bind_ok h
  obtain ⟨lp, h2, h⟩ := bind_ok h
  obtain ⟨lc, h3, h⟩ := bind_ok h
  obtain ⟨cp, h4, h⟩ := bind_ok h
  obtain ⟨cl, h5, h⟩ := bind_ok h
  exact ⟨mf, lp, lc, cp, cl, h1, h2, h3, h4, h5, (Except.ok.inj h).symm⟩

theorem titleEval_fst_inRange {t : Table} {p : PFloat × List String}
    (h : titleEval t = Except.ok p) : pfInRange p.1 := by
  unfold titleEval at h
  split_ifs at h with h1 h2
  · obtain ⟨ts, hts, h⟩ := bind_ok h
    cases Except.ok.inj h
    obtain ⟨good, hg, hts⟩ := bind_ok hts
    cases Except.ok.inj hts
    exact fracScore_inRange _
  · obtain ⟨ts, hts, h⟩ := bind_ok h
    cases Except.ok.inj h
    cases Except.ok.inj hts
    exact fracScore_inRange _
  · cases Except.ok.inj h
    exact pfInRange_pf (by norm_num) (by norm_num)

theorem descEval_fst_inRange {t : Table} {p : PFloat × List String}
    (h : descEval t = Except.ok p) : pfInRange p.1 := by
  unfold descEval at h
  split_ifs at h with h1 h2
  · obtain ⟨ds, hds, h⟩ := bind_ok h
    cases Except.ok.inj h
    obtain ⟨good, hg, hds⟩ := bind_ok hds
    cases Except.ok.inj hds
    exact fracScore_inRange _
  · obtain ⟨ds, hds, h⟩ := bind_ok h
    cases Except.ok.inj h
    cases Except.ok.inj hds
    exact fracScore_inRange _
  · cases Except.ok.inj h
    exact pfInRange_pf (by norm_num) (by norm_num)

theorem h1Eval_fst_inRange (t : Table) : pfInRange (h1Eval t).1 := by
  unfold h1Eval
  split_ifs <;>
    first
      | exact fracScore_inRange _
      | exact pfInRange_pf (by norm_num) (by norm_num)

theorem ilEval_fst_inRange {t : Table} {p : PFloat × List String}
    (h : ilEval t = Except.ok p) : pfInRange p.1 := by
  unfold ilEval at h
  split_ifs at h with h1 h2
  · obtain ⟨good, hg, h⟩ := bind_ok h
    cases Except.ok.inj h
    exact fracScore_inRange _
  · obtain ⟨good, hg, h⟩ := bind_ok h
    cases Except.ok.inj h
    exact fracScore_inRange _
  · cases Except.ok.inj h
    exact pfInRange_pf (by norm_num) (by norm_num)

theorem qualityEval_fst_inRange {t : Table} {p : PFloat × List String}
    (h : qualityEval t = Except.ok p) : pfInRange p.1 := by
  unfold qualityEval at h
  obtain ⟨wcg, hw, h⟩ := bind_ok h
  obtain ⟨rdg, hr, h⟩ := bind_ok h
  have hwr : pfInRange wcg := by
    split_ifs at hw
    · obtain ⟨g, hg, hw⟩ := bind_ok hw
      cases Except.ok.inj hw
      exact fracScore_inRange _
    · cases Except.ok.inj hw
      exact pfInRange_pf (by norm_num) (by norm_num)
  have hrr : pfInRange rdg := by
    split_ifs at hr
    · obtain ⟨g, hg, hr⟩ := bind_ok hr
      cases Except.ok.inj hr
      exact fracScore_inRange _
    · cases Except.ok.inj hr
      exact pfInRange_pf (by norm_num) (by norm_num)
  split_ifs at h
  · cases Except.ok.inj h
    exact pfInRange_halfAdd hwr hrr
  · cases Except.ok.inj h
    exact pfInRange_pf (by norm_num) (by norm_num)

theorem responseEval_fst_inRange {t : Table} {p : PFloat × List String}
    (hPS : colNonnegB t "Page Speed" = true)
    (h : responseEval t = Except.ok p) : pfInRange p.1 := by
  unfold responseEval at h
  split_ifs at h with h1 h2 h3
  · obtain ⟨avg, ha, h⟩ := bind_ok h
    obtain ⟨good, hg, h⟩ := bind_ok h
    cases Except.ok.inj h
    exact fracScore_inRange _
  · obtain ⟨ms, hm, h⟩ := bind_ok h
    cases Except.ok.inj h
    exact pfInRange_pf (by norm_num) (by norm_num)
  · obtain ⟨avg, ha, h⟩ := bind_ok h
    cases Except.ok.inj h
    apply pfInRange_speedEst (by norm_num)
    intro a haa
    subst haa
    exact colMean_ok_nonneg (colNonnegB_spec hPS) ha
  · cases Except.ok.inj h
    exact pfInRange_pf (by norm_num) (by norm_num)

theorem statusEval_fst_inRange (t : Table) : pfInRange (statusEval t).1 := by
  unfold statusEval
  split_ifs <;>
    first
      | exact fracScore_inRange _
      | exact pfInRange_pf (by norm_num) (by norm_num)

theorem indexEval_fst_inRange (t : Table) : pfInRange (indexEval t).1 := by
  unfold indexEval
  split_ifs <;>
    first
      | exact fracScore_inRange _
      | exact pfInRange_pf (by norm_num) (by norm_num)

theorem canonicalScore_inRange (t : Table) : pfInRange (canonicalScore t) := by
  unfold canonicalScore
  split_ifs
  · exact pfInRange_pf (by norm_num) (by norm_num)
  · unfold canonicalEval
    cases canonicalCol t
    · exact pfInRange_pf (by norm_num) (by norm_num)
    · exact fracScore_inRange _

theorem mobileEval_inRange (t : Table) : pfInRange (mobileEval t) := by
  unfold mobileEval
  split_ifs <;>
    first
      | exact fracScore_inRange _
      | exact pfInRange_pf (by norm_num) (by norm_num)

theorem lcpEval_fst_inRange {t : Table} {p : PFloat × List String}
    (hRT : colNonnegB t "Response Time" = true)
    (h : lcpEval t = Except.ok p) : pfInRange p.1 := by
  unfold lcpEval at h
  split_ifs at h with h1 h2 h3
  · obtain ⟨good, hg, h⟩ := bind_ok h
    cases Except.ok.inj h
    exact fracScore_inRange _
  · obtain ⟨good, hg, h⟩ := bind_ok h
    cases Except.ok.inj h
    exact fracScore_inRange _
  · obtain ⟨avg, ha, h⟩ := bind_ok h
    cases Except.ok.inj h
    apply pfInRange_speedEst (by norm_num)
    intro a haa
    subst haa
    exact colMean_ok_nonneg (colNonnegB_spec hRT) ha
  · cases Except.ok.inj h
    exact pfInRange_pf (by norm_num) (by norm_num)

theorem clsEval_fst_inRange {t : Table} {p : PFloat × List String}
    (h : clsEval t = Except.ok p) : pfInRange p.1 := by
  unfold clsEval at h
  split_ifs at h with h1 h2
  · obtain ⟨good, hg, h⟩ := bind_ok h
    cases Except.ok.inj h
    exact fracScore_inRange _
  · obtain ⟨good, hg, h⟩ := bind_ok h
    cases Except.ok.inj h
    exact fracScore_inRange _
  · cases Except.ok.inj h
    exact pfInRange_pf (by norm_num) (by norm_num)

/-- The aggregation formula of `calculate_overall_score` in field notation:
dividing by 100, weighting and rescaling by 100 is the plain weighted sum. -/
theorem overall_formula (x y z : ℤ) :
    calculate_overall_score SEOScorer.init x y z
      = pyRound ((2 / 5 : ℚ) * (x : ℚ) + (2 / 5 : ℚ) * (y : ℚ) + (1 / 5 : ℚ) * (z : ℚ)) := by
  unfold calculate_overall_score SEOScorer.init
  congr 1
  have h100 : (100 : ℚ) ≠ 0 := by norm_num
  rw [qMul_eq, qAdd_eq, qAdd_eq, qMul_eq, qMul_eq, qMul_eq,
    qDiv_eq _ _ h100, qDiv_eq _ _ h100, qDiv_eq _ _ h100,
    Rat.divInt_eq_div, Rat.divInt_eq_div]
  push_cast
  ring

/-- C1: for every triple of category scores in [0,100] the overall score is
`round(0.4*content + 0.4*technical + 0.2*ux)`, an integer in [0,100]; in
particular three 90s give overall 90. -/
theorem C1_overall_weighted_formula (c t u : ℤ)
    (hc0 : 0 ≤ c) (hc1 : c ≤ 100) (ht0 : 0 ≤ t) (ht1 : t ≤ 100)
    (hu0 : 0 ≤ u) (hu1 : u ≤ 100) :
    calculate_overall_score SEOScorer.init c t u
        = pyRound ((2 / 5 : ℚ) * (c : ℚ) + (2 / 5 : ℚ) * (t : ℚ) + (1 / 5 : ℚ) * (u : ℚ))
      ∧ inRange (calculate_overall_score SEOScorer.init c t u)
      ∧ calculate_overall_score SEOScorer.init 90 90 90 = 90 := by
  have hc0q : (0 : ℚ) ≤ (c : ℚ) := by exact_mod_cast hc0
  have hc1q : (c : ℚ) ≤ 100 := by exact_mod_cast hc1
  have ht0q : (0 : ℚ) ≤ (t : ℚ) := by exact_mod_cast ht0
  have ht1q : (t : ℚ) ≤ 100 := by exact_mod_cast ht1
  have hu0q : (0 : ℚ) ≤ (u : ℚ) := by exact_mod_cast hu0
  have hu1q : (u : ℚ) ≤ 100 := by exact_mod_cast hu1
  refine ⟨overall_formula c t u, ?_, by decide⟩
  rw [overall_formula c t u]
  constructor
  · apply intCast_le_pyRound
    push_cast
    linarith
  · apply pyRound_le_intCast
    push_cast
    linarith

/-- C1 witness at content = technical = ux = 90. -/
theorem C1_overall_weighted_formula_witness :
    calculate_overall_score SEOScorer.init 90 90 90
        = pyRound ((2 / 5 : ℚ) * ((90 : ℤ) : ℚ) + (2 / 5 : ℚ) * ((90 : ℤ) : ℚ)
          + (1 / 5 : ℚ) * ((90 : ℤ) : ℚ))
      ∧ inRange (calculate_overall_score SEOScorer.init 90 90 90)
      ∧ calculate_overall_score SEOScorer.init 90 90 90 = 90 :=
  C1_overall_weighted_formula 90 90 90 (by decide) (by decide) (by decide)
    (by decide) (by decide) (by decide)

/-- C4: the overall score is monotone in each category score with the other
two held fixed. -/
theorem C4_overall_monotone :
    (∀ c c' t u : ℤ, c ≤ c' →
      calculate_overall_score SEOScorer.init c t u
        ≤ calculate_overall_score SEOScorer.init c' t u)
  ∧ (∀ c t t' u : ℤ, t ≤ t' →
      calculate_overall_score SEOScorer.init c t u
        ≤ calculate_overall_score SEOScorer.init c t' u)
  ∧ (∀ c t u u' : ℤ, u ≤ u' →
      calculate_overall_score SEOScorer.init c t u
        ≤ calculate_overall_score SEOScorer.init c t u') := by
  refine ⟨?_, ?_, ?_⟩
  · intro c c' t u h
    rw [overall_formula, overall_formula]
    apply pyRound_mono
    have hq : (c : ℚ) ≤ (c' : ℚ) := by exact_mod_cast h
    linarith
  · intro c t t' u h
    rw [overall_formula, overall_formula]
    apply pyRound_mono
    have hq : (t : ℚ) ≤ (t' : ℚ) := by exact_mod_cast h
    linarith
  · intro c t u u' h
    rw [overall_formula, overall_formula]
    apply pyRound_mono
    have hq : (u : ℚ) ≤ (u' : ℚ) := by exact_mod_cast h
    linarith

/-- C4 witness: concrete monotone steps in each argument. -/
theorem C4_overall_monotone_witness :
    calculate_overall_score SEOScorer.init 50 60 70
        ≤ calculate_overall_score SEOScorer.init 80 60 70
  ∧ calculate_overall_score SEOScorer.init 50 60 70
        ≤ calculate_overall_score SEOScorer.init 50 90 70
  ∧ calculate_overall_score SEOScorer.init 50 60 70
        ≤ calculate_overall_score SEOScorer.init 50 60 95 :=
  ⟨C4_overall_monotone.1 50 80 60 70 (by decide),
   C4_overall_monotone.2.1 50 60 90 70 (by decide),
   C4_overall_monotone.2.2 50 60 70 95 (by decide)⟩

/-- C8: the engine is a pure function of the table: the scorer state is
returned unchanged and a second run on the same table yields the identical
report. -/
theorem C8_engine_pure_idempotent (t : Table) :
    (runAnalysis SEOScorer.init t).1 = SEOScorer.init
  ∧ (runAnalysis ((runAnalysis SEOScorer.init t).1) t).2
      = (runAnalysis SEOScorer.init t).2 :=
  ⟨rfl, rfl⟩

/-- C9: the recommendation priority score is `(impact_weight * 2) / effort_weight`
with impact weights 5,4,3,2,1 and effort weights 1,2,3,4,5; in particular
critical/quick_win scores 10 and informational/major scores 0.4. -/
theorem C9_priority_formula :
    (∀ i e, priorityScore i e = impactWeight i * 2 / effortWeight e)
  ∧ impactWeight Impact.critical = 5 ∧ impactWeight Impact.high = 4
  ∧ impactWeight Impact.medium = 3 ∧ impactWeight Impact.low = 2
  ∧ impactWeight Impact.informational = 1
  ∧ effortWeight Effort.quick_win = 1 ∧ effortWeight Effort.easy = 2
  ∧ effortWeight Effort.moderate = 3 ∧ effortWeight Effort.complex = 4
  ∧ effortWeight Effort.major = 5
  ∧ priorityScore Impact.critical Effort.quick_win = 10
  ∧ priorityScore Impact.informational Effort.major = 2 / 5 := by
  refine ⟨?_, rfl, rfl, rfl, rfl, rfl, rfl, rfl, rfl, rfl, rfl, by decide, ?_⟩
  · intro i e
    have hne : effortWeight e ≠ 0 := by cases e <;> norm_num [effortWeight]
    unfold priorityScore
    rw [qDiv_eq _ _ hne, qMul_eq]
  · show priorityScore Impact.informational Effort.major = 2 / 5
    unfold priorityScore
    rw [qDiv_eq _ _ (by norm_num [effortWeight]), qMul_eq]
    norm_num [impactWeight, effortWeight]

def tblC3 : Table := ⟨["X"], [⟨[("X", Value.num 1)]⟩]⟩

/-- C3 counterexample: on a table whose only column is unrecognised, the
technical scorer returns 60 (the average of its built-in defaults), not 0,
and the content scorer returns 0 with an empty weakness list — no
"insufficient data" weakness is ever emitted. -/
theorem C3_counterexample :
    (analyze_technical_seo tblC3).toOption.map (fun r => r.score) = some 60
  ∧ (analyze_technical_seo tblC3).toOption.map (fun r => r.score) ≠ some 0
  ∧ analyze_content_seo tblC3 = Except.ok ⟨0, ⟨0, 0, 0, 0, 0⟩, []⟩
  ∧ (analyze_user_experience tblC3).toOption.map (fun r => r.score) = some 62 :=
  ⟨by decide, by decide, by decide, by decide⟩

/-- C3 (amended): when none of a category's recognised signal columns is
present (including the `Address`/`URL` columns whose `.str` accessor could
raise in the HTTPS block), the scorers complete without exception, but only
the content category scores 0 (with an empty weakness list); the technical
and UX categories score 60 and 62 from their built-in defaults, and no
"insufficient data" weakness exists anywhere in the code. -/
theorem C3_no_columns_defaults (t : Table)
    (h1 : "Title 1" ∉ t.cols) (h2 : "Meta Description 1" ∉ t.cols)
    (h3 : "H1-1" ∉ t.cols) (h4 : "H1" ∉ t.cols)
    (h5 : "Images" ∉ t.cols) (h6 : "Images without Alt Text" ∉ t.cols)
    (h7 : "Inlinks" ∉ t.cols) (h8 : "Internal Links" ∉ t.cols)
    (h9 : "Word Count" ∉ t.cols) (h10 : "Flesch Reading Ease Score" ∉ t.cols)
    (h11 : "Response Time" ∉ t.cols) (h12 : "Mobile Speed" ∉ t.cols)
    (h13 : "Page Speed" ∉ t.cols) (h14 : "Status Code" ∉ t.cols)
    (h15 : "HTTP Status Code" ∉ t.cols) (h16 : "Indexability" ∉ t.cols)
    (h17 : "Indexable" ∉ t.cols) (h18 : "Canonical Link Element 1" ∉ t.cols)
    (h19 : "Canonical" ∉ t.cols) (h20 : "Canonical URL" ∉ t.cols)
    (h21 : "Images over 100kb" ∉ t.cols) (h22 : "Image Size" ∉ t.cols)
    (h23 : "Mobile Friendly" ∉ t.cols) (h24 : "Mobile Alternate Link" ∉ t.cols)
    (h25 : "Viewport" ∉ t.cols) (h26 : "Largest Contentful Paint Time (ms)" ∉ t.cols)
    (h27 : "LCP" ∉ t.cols) (h28 : "Cumulative Layout Shift" ∉ t.cols)
    (h29 : "CLS" ∉ t.cols) (h30 : "Address" ∉ t.cols) (h31 : "URL" ∉ t.cols) :
    analyze_content_seo t = Except.ok ⟨0, ⟨0, 0, 0, 0, 0⟩, []⟩
  ∧ analyze_technical_seo t = Except.ok ⟨60, ⟨0, 85, 80, 75⟩, []⟩
  ∧ analyze_user_experience t = Except.ok ⟨62, ⟨60, 55, 70⟩, []⟩ := by
  have htit : titleEval t = Except.ok (pf 0, []) := by
    unfold titleEval
    rw [if_neg h1]
  have hdesc : descEval t = Except.ok (pf 0, []) := by
    unfold descEval
    rw [if_neg h2]
  have hh1 : h1Eval t = (pf 0, []) := by
    unfold h1Eval
    rw [if_neg h3, if_neg h4]
  have himg : imgAltScore t = Except.ok (pf 0) := by
    unfold imgAltScore
    rw [if_neg (fun hab => h5 hab.1), if_neg h6]
  have hil : ilEval t = Except.ok (pf 0, []) := by
    unfold ilEval
    rw [if_neg h7, if_neg h8]
  have hqual : qualityEval t = Except.ok (pf 0, []) := by
    unfold qualityEval
    rw [if_neg h9, if_neg h10]
    decide
  have hresp : responseEval t = Except.ok (pf 0, []) := by
    unfold responseEval
    rw [if_neg h11, if_neg h12, if_neg h13]
  have hstat : statusEval t = (pf 85, []) := by
    unfold statusEval
    rw [if_neg h14, if_neg h15]
  have hindex : indexEval t = (pf 80, []) := by
    unfold indexEval
    rw [if_neg h16, if_neg h17]
  have hceval : canonicalEval t = pf 0 := by
    unfold canonicalEval canonicalCol
    rw [if_neg h18, if_neg h19, if_neg h20]
  have hcs : canonicalScore t = pf 75 := by
    unfold canonicalScore
    rw [hceval]
    decide
  have hcw : canonicalWeak t = [] := by
    unfold canonicalWeak
    rw [hcs]
    decide
  have hio : imgOptEffect t = Except.ok () := by
    unfold imgOptEffect
    rw [if_neg h21, if_neg h22]
  have hhttps : httpsEffect t = Except.ok () := by
    unfold httpsEffect
    rw [if_neg h30, if_neg h31]
  have hmob : mobileEval t = pf 60 := by
    unfold mobileEval
    rw [if_neg h23, if_neg h24, if_neg h25]
  have hlcp : lcpEval t = Except.ok (pf 55, []) := by
    unfold lcpEval
    rw [if_neg h26, if_neg h27, if_neg h11]
  have hcls : clsEval t = Except.ok (pf 70, []) := by
    unfold clsEval
    rw [if_neg h28, if_neg h29]
  refine ⟨?_, ?_, ?_⟩
  · unfold analyze_content_seo
    rw [htit, hdesc, himg, hil, hqual, hh1]
    decide
  · unfold analyze_technical_seo
    rw [hresp, hstat, hindex, hcs, hcw, hio, hhttps]
    decide
  · unfold analyze_user_experience
    rw [hmob, hlcp, hcls]
    decide

/-- C3 witness at the concrete one-column table `tblC3`. -/
theorem C3_no_columns_defaults_witness :
    analyze_content_seo tblC3 = Except.ok ⟨0, ⟨0, 0, 0, 0, 0⟩, []⟩
  ∧ analyze_technical_seo tblC3 = Except.ok ⟨60, ⟨0, 85, 80, 75⟩, []⟩
  ∧ analyze_user_experience tblC3 = Except.ok ⟨62, ⟨60, 55, 70⟩, []⟩ :=
  C3_no_columns_defaults tblC3 (by decide) (by decide) (by decide) (by decide)
    (by decide) (by decide) (by decide) (by decide) (by decide) (by decide)
    (by decide) (by decide) (by decide) (by decide) (by decide) (by decide)
    (by decide) (by decide) (by decide) (by decide) (by decide) (by decide)
    (by decide) (by decide) (by decide) (by decide) (by decide) (by decide)
    (by decide) (by decide) (by decide)

def tblC6 : Table :=
  ⟨["Title 1", "Title 1 Length"],
   [⟨[("Title 1", Value.str "Home"), ("Title 1 Length", Value.str "abc")]⟩]⟩

/-- C6 counterexample: a non-numeric string in the numeric column
`Title 1 Length` makes the content scorer raise (TypeError in the pandas
comparison) instead of skipping the row. -/
theorem C6_counterexample : analyze_content_seo tblC6 = Except.error () := by decide

theorem listCmp_error {l : List Value} (p : ℚ → Bool)
    (h : ∃ v ∈ l, v.isStr = true) : listCmp p l = Except.error () := by
  induction l with
  | nil =>
    obtain ⟨v, hv, _⟩ := h
    cases hv
  | cons x xs ih =>
    obtain ⟨v, hv, hs⟩ := h
    rcases List.mem_cons.mp hv with rfl | hmem
    · cases v with
      | str s => rfl
      | null => simp [Value.isStr] at hs
      | num q => simp [Value.isStr] at hs
    · have hxs : listCmp p xs = Except.error () := ih ⟨v, hmem, hs⟩
      cases x with
      | str s => rfl
      | null => simp [listCmp, vCmp, hxs, Bind.bind, Except.bind]
      | num q => simp [listCmp, vCmp, hxs, Bind.bind, Except.bind]

/-- C6 (amended): a malformed (non-numeric string) value in a numeric signal
column such as `Title 1 Length` aborts the whole table's analysis with an
exception; the row is not skipped individually. -/
theorem C6_malformed_raises (t : Table)
    (h1 : "Title 1" ∈ t.cols) (h2 : "Title 1 Length" ∈ t.cols)
    (h3 : ∃ v ∈ t.col "Title 1 Length", v.isStr = true) :
    analyze_content_seo t = Except.error () := by
  have htit : titleEval t = Except.error () := by
    unfold titleEval colCmp
    rw [if_pos h1, if_pos h2, listCmp_error _ h3]
    rfl
  unfold analyze_content_seo
  rw [htit]
  rfl

def tblC6w : Table :=
  ⟨["Title 1", "Title 1 Length"],
   [⟨[("Title 1", Value.str "Home"), ("Title 1 Length", Value.num 40)]⟩,
    ⟨[("Title 1", Value.str "Blog"), ("Title 1 Length", Value.str "bad")]⟩]⟩

/-- C6 witness: a two-row table with one well-formed and one malformed row
still aborts entirely. -/
theorem C6_malformed_raises_witness : analyze_content_seo tblC6w = Except.error () :=
  C6_malformed_raises tblC6w (by decide) (by decide)
    ⟨Value.str "bad", by decide, by decide⟩

/-- A boolean series that is true on exactly three fifths of a nonempty table
has percentage score 60. -/
theorem fracScore_of_ratio {bs : List Bool} (hne : bs ≠ [])
    (h : bs.countP id * 5 = bs.length * 3) : fracScore bs = some 60 := by
  unfold fracScore
  rw [if_neg (by simpa [List.isEmpty_iff] using hne)]
  congr 1
  rw [Rat.divInt_eq_div]
  have hlen : 0 < bs.length := List.length_pos.mpr hne
  have hlenq : (0 : ℚ) < (((bs.length : ℕ) : ℤ) : ℚ) := by exact_mod_cast hlen
  rw [div_eq_iff (ne_of_gt hlenq)]
  have hq : ((bs.countP id : ℕ) : ℚ) * 5 = ((bs.length : ℕ) : ℚ) * 3 := by exact_mod_cast h
  push_cast at hq ⊢
  linarith

def tblC5 : Table :=
  ⟨["Status Code"],
   [⟨[("Status Code", Value.num 200)]⟩, ⟨[("Status Code", Value.num 200)]⟩,
    ⟨[("Status Code", Value.num 200)]⟩, ⟨[("Status Code", Value.num 404)]⟩,
    ⟨[("Status Code", Value.num 500)]⟩]⟩

/-- C5: whenever a table has a `Status Code` column in which exactly 60% of
the rows are 200, the technical status sub-score is 60 and, 60 being below
the 70 trigger, the weakness "Issues with HTTP status codes." is appended. -/
theorem C5_status_sixty (t : Table) (r : TechResult)
    (hmem : "Status Code" ∈ t.cols)
    (hne : t.rows ≠ [])
    (hcount : (t.col "Status Code").countP (vEqNum 200) * 5 = t.rows.length * 3)
    (hok : analyze_technical_seo t = Except.ok r) :
    r.scores.status_codes = 60 ∧ "Issues with HTTP status codes." ∈ r.weaknesses := by
  have hcolne : t.col "Status Code" ≠ [] := by
    unfold Table.col
    simpa using hne
  have hfrac : fracScore ((t.col "Status Code").map (vEqNum 200)) = some 60 := by
    apply fracScore_of_ratio (by simpa using hcolne)
    rw [List.countP_map, List.length_map]
    have hcomp : (id ∘ vEqNum 200) = vEqNum 200 := rfl
    rw [hcomp]
    unfold Table.col at hcount ⊢
    rw [List.length_map]
    exact hcount
  have hstat : statusEval t = (some 60, ["Issues with HTTP status codes."]) := by
    unfold statusEval
    rw [if_pos hmem, hfrac]
    decide
  have hstat1 : (statusEval t).1 = some 60 := by rw [hstat]
  have hstat2 : (statusEval t).2 = ["Issues with HTTP status codes."] := by rw [hstat]
  obtain ⟨rp, rt, sc, ix, ct, h1, h2, h3, h4, h5, hr⟩ := analyze_technical_shape hok
  rw [hstat1] at h3
  simp only [pyRoundF] at h3
  have hsc : sc = 60 := (Except.ok.inj h3).symm.trans (by decide)
  subst hr
  constructor
  · simpa using hsc
  · simp [hstat2]

def rC5 : TechResult := ⟨54, ⟨0, 60, 80, 75⟩, ["Issues with HTTP status codes."]⟩

/-- C5 witness: a five-row table with three 200s. -/
theorem C5_status_sixty_witness :
    rC5.scores.status_codes = 60 ∧ "Issues with HTTP status codes." ∈ rC5.weaknesses :=
  C5_status_sixty tblC5 rC5 (by decide) (by decide) (by decide) (by decide)

def tblC7 : Table :=
  ⟨["Title 1", "Title 1 Length", "Meta Description 1", "Meta Description 1 Length",
    "H1-1", "Inlinks", "Word Count", "Images without Alt Text"],
   [⟨[("Title 1", Value.str "Home"), ("Title 1 Length", Value.num 40),
      ("Meta Description 1", Value.str "Desc"), ("Meta Description 1 Length", Value.num 130),
      ("H1-1", Value.str "Welcome"), ("Inlinks", Value.num 5), ("Word Count", Value.num 400),
      ("Images without Alt Text", Value.num 3)]⟩]⟩

/-- C7 counterexample: a table whose five scores-dict sub-scores are
100, 100, 100, 100, 50 while the image alt-text coverage is 0 gets content
score round(450/5) = 90; were the alt-text coverage averaged in as the claim
states, the score would be round(450/6) = 75. -/
theorem C7_counterexample :
    analyze_content_seo tblC7 = Except.ok ⟨90, ⟨100, 100, 100, 100, 50⟩, []⟩
  ∧ imgAltScore tblC7 = Except.ok (some 0)
  ∧ pyRound (intMean [100, 100, 100, 100, 50, 0]) = 75
  ∧ (90 : ℤ) ≠ 75 :=
  ⟨by decide, by decide, by decide, by decide⟩

/-- C7 (amended): the content category score is the rounded unweighted mean
of exactly the five sub-scores held in the scores dict (meta-title,
meta-description, H1, internal linking, content quality); image alt-text and
structured data never enter the mean. -/
theorem C7_content_mean_of_five (t : Table) (r : ContentResult)
    (hok : analyze_content_seo t = Except.ok r) :
    r.score = pyRound (intMean [r.scores.meta_title, r.scores.meta_description,
      r.scores.h1_tags, r.scores.internal_linking, r.scores.content_quality]) := by
  obtain ⟨tp, dp, ia, ip, qp, mt, md, hv, il, cq, _, _, _, _, _, _, _, _, _, _, hr⟩ :=
    analyze_content_shape hok
  subst hr
  rfl

def rC7 : ContentResult := ⟨90, ⟨100, 100, 100, 100, 50⟩, []⟩

/-- C7 witness at the concrete table `tblC7`. -/
theorem C7_content_mean_of_five_witness :
    rC7.score = pyRound (intMean [rC7.scores.meta_title, rC7.scores.meta_description,
      rC7.scores.h1_tags, rC7.scores.internal_linking, rC7.scores.content_quality]) :=
  C7_content_mean_of_five tblC7 rC7 (by decide)

/-- An all-false boolean series over a nonempty table scores 0. -/
theorem fracScore_zero {bs : List Bool} (hne : bs ≠ []) (h : ∀ b ∈ bs, b = false) :
    fracScore bs = pf 0 := by
  unfold fracScore
  rw [if_neg (by simpa [List.isEmpty_iff] using hne)]
  have hc : bs.countP id = 0 := by
    rw [List.countP_eq_zero]
    intro b hb
    simp [h b hb]
  rw [hc]
  have hz : Rat.divInt (((0 : ℕ) : ℤ) * 100) ((bs.length : ℕ) : ℤ) = 0 := by
    rw [Rat.divInt_eq_div]
    norm_num
  rw [hz]
  rfl

/-- A string never equals the canonical-weakness label inside the one-element
weakness lists emitted by the other technical sub-scores. -/
theorem notMem_ite_single {c : Prop} [Decidable c] {s w : String} (hne : s ≠ w) :
    s ∉ (if c then [w] else []) := by
  split_ifs
  · simp [hne]
  · simp

theorem responseEval_no_canon {t : Table} {p : PFloat × List String}
    (h : responseEval t = Except.ok p) :
    "Improper or missing canonical tags." ∉ p.2 := by
  unfold responseEval at h
  split_ifs at h
  · obtain ⟨avg, ha, h⟩ := bind_ok h
    obtain ⟨good, hg, h⟩ := bind_ok h
    cases Except.ok.inj h
    exact notMem_ite_single (by decide)
  · obtain ⟨ms, hm, h⟩ := bind_ok h
    cases Except.ok.inj h
    simp
  · obtain ⟨avg, ha, h⟩ := bind_ok h
    cases Except.ok.inj h
    simp
  · cases Except.ok.inj h
    simp

theorem statusEval_no_canon (t : Table) :
    "Improper or missing canonical tags." ∉ (statusEval t).2 := by
  unfold statusEval
  split_ifs
  · exact notMem_ite_single (by decide)
  · exact notMem_ite_single (by decide)
  · simp

theorem indexEval_no_canon (t : Table) :
    "Improper or missing canonical tags." ∉ (indexEval t).2 := by
  unfold indexEval
  split_ifs
  · exact notMem_ite_single (by decide)
  · exact notMem_ite_single (by decide)
  · simp

/-- C10: a present canonical column whose values are all null measures
coverage 0, which the `== 0` default check silently replaces with 75, so the
canonical sub-score is 75 and the canonical weakness is not emitted. -/
theorem C10_canonical_default (t : Table) (c : String) (r : TechResult)
    (hcol : canonicalCol t = some c)
    (hnull : ∀ v ∈ t.col c, v = Value.null)
    (hne : t.rows ≠ [])
    (hok : analyze_technical_seo t = Except.ok r) :
    r.scores.canonical_tags = 75
  ∧ "Improper or missing canonical tags." ∉ r.weaknesses := by
  have hcolne : t.col c ≠ [] := by
    unfold Table.col
    simpa using hne
  have hceval : canonicalEval t = pf 0 := by
    unfold canonicalEval
    rw [hcol]
    apply fracScore_zero (by simpa using hcolne)
    intro b hb
    obtain ⟨v, hv, hvb⟩ := List.mem_map.mp hb
    rw [hnull v hv] at hvb
    simpa [Value.notna] using hvb.symm
  have hcs : canonicalScore t = pf 75 := by
    unfold canonicalScore
    rw [hceval]
    decide
  have hcw : canonicalWeak t = [] := by
    unfold canonicalWeak
    rw [hcs]
    decide
  obtain ⟨rp, rt, sc, ix, ct, h1, h2, h3, h4, h5, hr⟩ := analyze_technical_shape hok
  rw [hcs] at h5
  simp only [pf, pyRoundF] at h5
  have hct : ct = 75 := (Except.ok.inj h5).symm.trans (by decide)
  subst hr
  constructor
  · simpa using hct
  · show "Improper or missing canonical tags."
      ∉ rp.2 ++ (statusEval t).2 ++ (indexEval t).2 ++ canonicalWeak t
    rw [hcw, List.append_nil]
    intro hmem
    rcases List.mem_append.mp hmem with hmem2 | hmem2
    · rcases List.mem_append.mp hmem2 with hmem3 | hmem3
      · exact responseEval_no_canon h1 hmem3
      · exact statusEval_no_canon t hmem3
    · exact indexEval_no_canon t hmem2

def tblC10 : Table :=
  ⟨["Canonical Link Element 1"], [⟨[("Canonical Link Element 1", Value.null)]⟩]⟩

def rC10 : TechResult := ⟨60, ⟨0, 85, 80, 75⟩, []⟩

/-- C10 witness: a one-row table whose canonical column is entirely null. -/
theorem C10_canonical_default_witness :
    rC10.scores.canonical_tags = 75
  ∧ "Improper or missing canonical tags." ∉ rC10.weaknesses :=
  C10_canonical_default tblC10 "Canonical Link Element 1" rC10 (by decide)
    (by decide) (by decide) (by decide)

def tblC2 : Table := ⟨["Page Speed"], [⟨[("Page Speed", Value.num (-1))]⟩]⟩

/-- C2 counterexample: one row with `Page Speed = -1` gives the response-time
sub-score `max(0, 100 - (-1)*10) = 110`, outside the claimed [0,100] band. -/
theorem C2_counterexample :
    (analyze_technical_seo tblC2).toOption.map (fun r => r.scores.response_time) = some 110
  ∧ ¬ inRange 110 :=
  ⟨by decide, by decide⟩

/-- Aggregating three in-band category scores yields an in-band overall score. -/
theorem overall_inRange {c t u : ℤ} (hc : inRange c) (ht : inRange t) (hu : inRange u) :
    inRange (calculate_overall_score SEOScorer.init c t u) := by
  obtain ⟨hc0, hc1⟩ := hc
  obtain ⟨ht0, ht1⟩ := ht
  obtain ⟨hu0, hu1⟩ := hu
  have hc0q : (0 : ℚ) ≤ (c : ℚ) := by exact_mod_cast hc0
  have hc1q : (c : ℚ) ≤ 100 := by exact_mod_cast hc1
  have ht0q : (0 : ℚ) ≤ (t : ℚ) := by exact_mod_cast ht0
  have ht1q : (t : ℚ) ≤ 100 := by exact_mod_cast ht1
  have hu0q : (0 : ℚ) ≤ (u : ℚ) := by exact_mod_cast hu0
  have hu1q : (u : ℚ) ≤ 100 := by exact_mod_cast hu1
  rw [overall_formula]
  constructor
  · apply intCast_le_pyRound
    push_cast
    linarith
  · apply pyRound_le_intCast
    push_cast
    linarith

/-- C2 (amended): on a table whose `Page Speed` and `Response Time` numeric
cells are nonnegative, every sub-score of the three scores dicts, every
category score and the overall score lie in [0,100] whenever the analysis
completes. -/
theorem C2_scores_in_range (t : Table) (rc : ContentResult) (rt : TechResult) (ru : UXResult)
    (hPS : colNonnegB t "Page Speed" = true)
    (hRT : colNonnegB t "Response Time" = true)
    (hc : analyze_content_seo t = Except.ok rc)
    (ht : analyze_technical_seo t = Except.ok rt)
    (hu : analyze_user_experience t = Except.ok ru) :
    (inRange rc.score ∧ inRange rc.scores.meta_title ∧ inRange rc.scores.meta_description
      ∧ inRange rc.scores.h1_tags ∧ inRange rc.scores.internal_linking
      ∧ inRange rc.scores.content_quality)
  ∧ (inRange rt.score ∧ inRange rt.scores.response_time ∧ inRange rt.scores.status_codes
      ∧ inRange rt.scores.indexability ∧ inRange rt.scores.canonical_tags)
  ∧ (inRange ru.score ∧ inRange ru.scores.mobile_friendly
      ∧ inRange ru.scores.largest_contentful_paint
      ∧ inRange ru.scores.cumulative_layout_shift)
  ∧ inRange (calculate_overall_score SEOScorer.init rc.score rt.score ru.score) := by
  obtain ⟨tp, dp, ia, ip, qp, mt, md, hv, il, cq,
    htp, hdp, hia, hip, hqp, hmt, hmd, hhv, hil2, hcq, hrc⟩ := analyze_content_shape hc
  have imt : inRange mt := pyRoundF_ok_inRange (titleEval_fst_inRange htp) hmt
  have imd : inRange md := pyRoundF_ok_inRange (descEval_fst_inRange hdp) hmd
  have ihv : inRange hv := pyRoundF_ok_inRange (h1Eval_fst_inRange t) hhv
  have iil : inRange il := pyRoundF_ok_inRange (ilEval_fst_inRange hip) hil2
  have icq : inRange cq := pyRoundF_ok_inRange (qualityEval_fst_inRange hqp) hcq
  have icsc : inRange (pyRound (intMean [mt, md, hv, il, cq])) := by
    apply intMean_round_inRange (by simp)
    intro x hx
    simp only [List.mem_cons, List.not_mem_nil, or_false] at hx
    rcases hx with rfl | rfl | rfl | rfl | rfl <;> assumption
  obtain ⟨rp, rtv, sc, ix, ct, hrp, hrtv, hsc, hix, hct, hrt2⟩ := analyze_technical_shape ht
  have irt : inRange rtv := pyRoundF_ok_inRange (responseEval_fst_inRange hPS hrp) hrtv
  have isc : inRange sc := pyRoundF_ok_inRange (statusEval_fst_inRange t) hsc
  have iix : inRange ix := pyRoundF_ok_inRange (indexEval_fst_inRange t) hix
  have ict : inRange ct := pyRoundF_ok_inRange (canonicalScore_inRange t) hct
  have itsc : inRange (pyRound (intMean [rtv, sc, ix, ct])) := by
    apply intMean_round_inRange (by simp)
    intro x hx
    simp only [List.mem_cons, List.not_mem_nil, or_false] at hx
    rcases hx with rfl | rfl | rfl | rfl <;> assumption
  obtain ⟨mf, lp, lc, cp, cl, hmf, hlp, hlc, hcp, hcl, hru2⟩ := analyze_ux_shape hu
  have imf : inRange mf := pyRoundF_ok_inRange (mobileEval_inRange t) hmf
  have ilc : inRange lc := pyRoundF_ok_inRange (lcpEval_fst_inRange hRT hlp) hlc
  have icl : inRange cl := pyRoundF_ok_inRange (clsEval_fst_inRange hcp) hcl
  have iusc : inRange (pyRound (intMean [mf, lc, cl])) := by
    apply intMean_round_inRange (by simp)
    intro x hx
    simp only [List.mem_cons, List.not_mem_nil, or_false] at hx
    rcases hx with rfl | rfl | rfl <;> assumption
  subst hrc
  subst hrt2
  subst hru2
  exact ⟨⟨icsc, imt, imd, ihv, iil, icq⟩, ⟨itsc, irt, isc, iix, ict⟩,
    ⟨iusc, imf, ilc, icl⟩, overall_inRange icsc itsc iusc⟩

def tblC2w : Table := ⟨["Page Speed"], [⟨[("Page Speed", Value.num 2)]⟩]⟩

def rC2c : ContentResult := ⟨0, ⟨0, 0, 0, 0, 0⟩, []⟩

def rC2t : TechResult := ⟨80, ⟨80, 85, 80, 75⟩, []⟩

def rC2u : UXResult := ⟨62, ⟨60, 55, 70⟩, []⟩

/-- C2 witness: a one-row table with `Page Speed = 2`. -/
theorem C2_scores_in_range_witness :
    (inRange rC2c.score ∧ inRange rC2c.scores.meta_title
      ∧ inRange rC2c.scores.meta_description ∧ inRange rC2c.scores.h1_tags
      ∧ inRange rC2c.scores.internal_linking ∧ inRange rC2c.scores.content_quality)
  ∧ (inRange rC2t.score ∧ inRange rC2t.scores.response_time
      ∧ inRange rC2t.scores.status_codes ∧ inRange rC2t.scores.indexability
      ∧ inRange rC2t.scores.canonical_tags)
  ∧ (inRange rC2u.score ∧ inRange rC2u.scores.mobile_friendly
      ∧ inRange rC2u.scores.largest_contentful_paint
      ∧ inRange rC2u.scores.cumulative_layout_shift)
  ∧ inRange (calculate_overall_score SEOScorer.init rC2c.score rC2t.score rC2u.score) :=
  C2_scores_in_range tblC2w rC2c rC2t rC2u (by decide) (by decide)
    (by decide) (by decide) (by decide)
